import Mathlib

/-!
Verification development for the AI-Talent-Matcher evaluation pipeline
(src/api_evaluator.py, src/main.py, src/pdf_generator.py).

Strings are modelled as `List Char` (`Text`), Python `dict`/JSON values by
the `Json` inductive, and the external world (PDF extraction, the DeepSeek
chat-completion endpoint) by explicit oracles passed as arguments. Machine
integers do not occur; scores are `Int` as parsed from JSON.
-/

abbrev Text := List Char

/-- Python `s.startswith(p)`: `p` is a leading segment of `s`. -/
def pyStartsWith : Text → Text → Bool
  | [], _ => true
  | _ :: _, [] => false
  | a :: as, b :: bs => a == b && pyStartsWith as bs

/-- Python `s.endswith(p)`. -/
def pyEndsWith (p s : Text) : Bool :=
  pyStartsWith p.reverse s.reverse

/-- Python `s[:-n]` for `n ≥ 1`: drop the last `n` characters (empty when
`n ≥ len(s)`). -/
def pyDropLast (n : Nat) (s : Text) : Text :=
  s.take (s.length - n)

/-- Python `s.strip()`: remove leading and trailing whitespace. -/
def pyStrip (s : Text) : Text :=
  ((s.dropWhile Char.isWhitespace).reverse.dropWhile Char.isWhitespace).reverse

/-- The markdown code-fence cleanup of `CVEvaluator.call_deepseek_api`
(src/api_evaluator.py lines 123-130): strip a leading triple-backtick fence
optionally tagged `json`, a trailing triple-backtick fence, then whitespace. -/
def cleanContent (content : Text) : Text :=
  let c1 := if pyStartsWith "```json".toList content then content.drop 7 else content
  let c2 := if pyStartsWith "```".toList c1 then c1.drop 3 else c1
  let c3 := if pyEndsWith "```".toList c2 then pyDropLast 3 c2 else c2
  pyStrip c3

/-- JSON values, the result type of Python `json.loads`. Numbers are
restricted to integers, which covers every payload this pipeline produces. -/
inductive Json where
  | null : Json
  | bool (b : Bool) : Json
  | num (n : Int) : Json
  | str (s : Text) : Json
  | arr (xs : List Json) : Json
  | obj (fields : List (Text × Json)) : Json

def jsonLookup (k : Text) : Json → Option Json
  | Json.obj fields => fields.lookup k
  | _ => none

def braceOpen : Char := Char.ofNat 123

def braceClose : Char := Char.ofNat 125

def quoteChar : Char := Char.ofNat 34

/-- Scan a JSON string body up to the closing quote (no escape handling:
none of the strings this development evaluates contain escapes). -/
def scanStringBody : Text → Option (Text × Text)
  | [] => none
  | c :: rest =>
    if c == quoteChar then some ([], rest)
    else match scanStringBody rest with
      | some (s, r) => some (c :: s, r)
      | none => none

def scanDigits : Text → Nat → Text × Nat
  | [], acc => ([], acc)
  | c :: rest, acc =>
    if c.isDigit then scanDigits rest (acc * 10 + (c.toNat - 48))
    else (c :: rest, acc)

def skipWs (s : Text) : Text := s.dropWhile Char.isWhitespace

mutual

/-- Fuel-indexed recursive-descent parse of one JSON value; models Python
`json.loads` on the integer/string/array/object fragment. -/
def parseVal : Nat → Text → Option (Json × Text)
  | 0, _ => none
  | fuel + 1, s =>
    match skipWs s with
    | [] => none
    | c :: rest =>
      if c == braceOpen then
        match skipWs rest with
        | c2 :: r2 =>
          if c2 == braceClose then some (Json.obj [], r2)
          else parseObjFields fuel (c2 :: r2)
        | [] => none
      else if c == '[' then
        match skipWs rest with
        | c2 :: r2 =>
          if c2 == ']' then some (Json.arr [], r2)
          else parseArrElems fuel (c2 :: r2)
        | [] => none
      else if c == quoteChar then
        match scanStringBody rest with
        | some (body, r) => some (Json.str body, r)
        | none => none
      else if c == '-' then
        match rest with
        | d :: _ =>
          if d.isDigit then
            match scanDigits rest 0 with
            | (r, n) => some (Json.num (-(Int.ofNat n)), r)
          else none
        | [] => none
      else if c.isDigit then
        match scanDigits (c :: rest) 0 with
        | (r, n) => some (Json.num (Int.ofNat n), r)
      else if pyStartsWith "true".toList (c :: rest) then
        some (Json.bool true, (c :: rest).drop 4)
      else if pyStartsWith "false".toList (c :: rest) then
        some (Json.bool false, (c :: rest).drop 5)
      else if pyStartsWith "null".toList (c :: rest) then
        some (Json.null, (c :: rest).drop 4)
      else none

/-- Parse the members of a JSON object after the opening brace. -/
def parseObjFields : Nat → Text → Option (Json × Text)
  | 0, _ => none
  | fuel + 1, s =>
    match skipWs s with
    | c :: rest =>
      if c == quoteChar then
        match scanStringBody rest with
        | some (key, r1) =>
          match skipWs r1 with
          | ':' :: r2 =>
            match parseVal fuel r2 with
            | some (v, r3) =>
              match skipWs r3 with
              | ',' :: r4 =>
                match parseObjFields fuel r4 with
                | some (Json.obj fs, r5) => some (Json.obj ((key, v) :: fs), r5)
                | _ => none
              | c5 :: r5 =>
                if c5 == braceClose then some (Json.obj [(key, v)], r5) else none
              | [] => none
            | none => none
          | _ => none
        | none => none
      else none
    | [] => none

/-- Parse the elements of a JSON array after the opening bracket. -/
def parseArrElems : Nat → Text → Option (Json × Text)
  | 0, _ => none
  | fuel + 1, s =>
    match parseVal fuel s with
    | some (v, r1) =>
      match skipWs r1 with
      | ',' :: r2 =>
        match parseArrElems fuel r2 with
        | some (Json.arr vs, r3) => some (Json.arr (v :: vs), r3)
        | _ => none
      | ']' :: r2 => some (Json.arr [v], r2)
      | _ => none
    | none => none

end

/-- Python `json.loads`: parse a complete JSON document, failing on trailing
garbage or on malformed input (`JSONDecodeError`). -/
def pyJsonLoads (s : Text) : Option Json :=
  match parseVal (s.length + 1) s with
  | some (v, rest) => if (skipWs rest).isEmpty then some v else none
  | none => none

/-- Python `str` applied to an integer (used by the summary f-strings). -/
def intToText (i : Int) : Text :=
  if i < 0 then '-' :: Nat.toDigits 10 i.natAbs else Nat.toDigits 10 i.toNat

/-- A parsed per-candidate evaluation: the JSON object shape requested by the
evaluation prompt, stored by `evaluate_candidates`. `candidate_number` is the
extra key that `PDFReportGenerator.generate_pdf` injects into the candidate
dict at render time; it is absent (`none`) in freshly parsed evaluations. -/
structure Evaluation where
  candidate_name : Text
  match_score : Int
  rating_summary : Text
  strengths : List Text
  potential_gaps : List Text
  candidate_number : Option Nat := none
deriving DecidableEq

/-- Insertion step of a stable descending sort keyed on `match_score`. An
incoming element passes over strictly greater scores only, so it lands before
any equal-scored element that was originally after it. -/
def insertDesc (e : Evaluation) : List Evaluation → List Evaluation
  | [] => [e]
  | h :: t => if e.match_score < h.match_score then h :: insertDesc e t else e :: h :: t

/-- Python `evaluations.sort(key=lambda x: x['match_score'], reverse=True)`
(src/api_evaluator.py line 255). CPython's `list.sort` is documented stable,
including under `reverse=True`; it is embedded as the stable descending
insertion sort, which computes the same list. -/
def pySortDesc (l : List Evaluation) : List Evaluation :=
  l.foldr insertDesc []

/-- Decidable check that a list is sorted by `match_score` in descending
(non-increasing) order. -/
def isSortedDesc : List Evaluation → Bool
  | [] => true
  | [_] => true
  | a :: b :: t => decide (b.match_score ≤ a.match_score) && isSortedDesc (b :: t)

/-- Outcome of `call_deepseek_api` on one candidate's prompt, as seen by the
orchestrator loop: the call raises, or returns a value (`none` models a falsy
return, which the loop's `if evaluation:` test rejects). -/
inductive LlmRes where
  | raise : LlmRes
  | ret (v : Option Evaluation) : LlmRes
deriving DecidableEq

/-- One candidate source together with the behaviour of the external world on
it: the result of `extract_text_from_pdf` (`none` is the exception path that
returns `None`) and the outcome of the LLM call on its prompt. -/
structure CvCase where
  name : Text
  extracted : Option Text
  llm : LlmRes
deriving DecidableEq

/-- Python truthiness of the extraction result: `if not cv_text` skips the
candidate exactly when the result is `None` or the empty string. A
whitespace-only string is truthy. -/
def pyTruthyText : Option Text → Bool
  | none => false
  | some t => !t.isEmpty

/-- One iteration of the `evaluate_candidates` loop body
(src/api_evaluator.py lines 222-252) for a single candidate: returns the
evaluation appended to the result list (if any) and whether the DeepSeek API
was called for this candidate. -/
def processCase (c : CvCase) : Option Evaluation × Bool :=
  if pyTruthyText c.extracted then
    match c.llm with
    | LlmRes.raise => (none, true)
    | LlmRes.ret none => (none, true)
    | LlmRes.ret (some e) => (some e, true)
  else
    (none, false)

/-- The successful evaluations collected by the `evaluate_candidates` loop,
in input-processing order. -/
def collectEvaluations : List CvCase → List Evaluation
  | [] => []
  | c :: rest =>
    match (processCase c).1 with
    | some e => e :: collectEvaluations rest
    | none => collectEvaluations rest

/-- Predicate for "extraction and LLM evaluation both succeeded": the
extraction result is truthy and the API call returned a truthy evaluation. -/
def evalSucceeded (c : CvCase) : Bool :=
  pyTruthyText c.extracted &&
    match c.llm with
    | LlmRes.ret (some _) => true
    | _ => false

/-- The fixed zero-candidate summary string. -/
def noCandidatesText : Text := "No candidates were evaluated.".toList

/-- Python `CVEvaluator.generate_overall_summary` (src/api_evaluator.py
lines 148-207). `net` is the outcome of the summary API call: `some content`
on HTTP success, `none` when the request raises. The second component
records whether a network call was issued. -/
def generate_overall_summary (evaluations : List Evaluation) (net : Option Text) :
    Text × Bool :=
  match evaluations with
  | [] => (noCandidatesText, false)
  | [candidate] =>
    (candidate.candidate_name ++
      " is the only candidate evaluated with a match score of ".toList ++
      intToText candidate.match_score ++ "/100.".toList, false)
  | top :: _ :: _ =>
    match net with
    | some content => (pyStrip content, true)
    | none =>
      (top.candidate_name ++ " ranks highest with a score of ".toList ++
        intToText top.match_score ++
        "/100, demonstrating the strongest alignment with role requirements across all evaluation criteria.".toList,
        true)

/-- The fixed `assessment_method` text of the report header. -/
def assessmentMethodText : Text :=
  "This report provides an AI-assisted evaluation of candidates against the role requirements. It summarizes estimated role fit, highlights strengths and potential risks, and presents a structured match score to support HR and hiring manager decisions.".toList

structure ReportHeader where
  role : Text
  department : Text
  company : Text
  location : Text
  work_mode : Text
  report_date : Text
  assessment_method : Text
deriving DecidableEq

/-- The report dictionary assembled by `evaluate_candidates`
(src/api_evaluator.py lines 262-276). -/
structure ReportData where
  report_header : ReportHeader
  candidates : List Evaluation
  overall_summary : Text
  total_candidates : Nat
deriving DecidableEq

/-- Python `CVEvaluator.evaluate_candidates` (src/api_evaluator.py lines
209-278): process each CV in order, collect successful evaluations, sort by
match score descending, generate the overall summary, and assemble the
report. `summaryNet` is the world's response to the summary API call and
`report_date` stands for `datetime.now().strftime(...)`. -/
def evaluate_candidates (cases : List CvCase) (job_title company department location work_mode : Text)
    (summaryNet : Option Text) (report_date : Text) : ReportData :=
  let evaluations := pySortDesc (collectEvaluations cases)
  { report_header :=
      { role := job_title
        department := department
        company := company
        location := location
        work_mode := work_mode
        report_date := report_date
        assessment_method := assessmentMethodText }
    candidates := evaluations
    overall_summary := (generate_overall_summary evaluations summaryNet).1
    total_candidates := evaluations.length }

/-- What the completion endpoint does on one attempt: the HTTP request
raises (`requests` exception, including non-2xx via `raise_for_status`), or
succeeds with message content `c`. -/
inductive ApiAttempt where
  | transportErr : ApiAttempt
  | content (c : Text) : ApiAttempt

/-- How an invocation of `call_deepseek_api` terminates: return of a parsed
value, propagation of the transport error, propagation of the
`JSONDecodeError`, or the trailing `return None` after the loop. -/
inductive CallOutcome where
  | success (v : Json) : CallOutcome
  | transportRaised : CallOutcome
  | jsonRaised : CallOutcome
  | returnedNone : CallOutcome

def CallOutcome.isReturnedNone : CallOutcome → Bool
  | CallOutcome.returnedNone => true
  | _ => false

/-- The retry loop of `call_deepseek_api` (src/api_evaluator.py lines
116-146). `oracle k` is the endpoint's behaviour on attempt index `k`
(0-based); `remaining` is the number of loop iterations left. Returns the
outcome together with the total number of attempts made. -/
def callGo (oracle : Nat → ApiAttempt) (max_retries : Nat) : Nat → Nat → CallOutcome × Nat
  | 0, k => (CallOutcome.returnedNone, k)
  | remaining + 1, k =>
    match oracle k with
    | ApiAttempt.transportErr =>
      if k == max_retries - 1 then (CallOutcome.transportRaised, k + 1)
      else callGo oracle max_retries remaining (k + 1)
    | ApiAttempt.content c =>
      match pyJsonLoads (cleanContent c) with
      | some v => (CallOutcome.success v, k + 1)
      | none =>
        if k == max_retries - 1 then (CallOutcome.jsonRaised, k + 1)
        else callGo oracle max_retries remaining (k + 1)

/-- Python `CVEvaluator.call_deepseek_api` (src/api_evaluator.py lines
93-146): `for attempt in range(max_retries)`, on HTTP success clean the
content and parse it as JSON; re-raise on the final attempt, otherwise
retry. The result value is paired with the number of attempts made. -/
def call_deepseek_api (oracle : Nat → ApiAttempt) (max_retries : Nat) : CallOutcome × Nat :=
  callGo oracle max_retries max_retries 0

/-- Serialization of one stored candidate dict by `json.dump`: the five keys
produced by parsing the LLM payload, plus `candidate_number` only when that
key has been injected. -/
def evalToJson (e : Evaluation) : Json :=
  Json.obj
    ([("candidate_name".toList, Json.str e.candidate_name),
      ("match_score".toList, Json.num e.match_score),
      ("rating_summary".toList, Json.str e.rating_summary),
      ("strengths".toList, Json.arr (e.strengths.map Json.str)),
      ("potential_gaps".toList, Json.arr (e.potential_gaps.map Json.str))] ++
      (match e.candidate_number with
       | some n => [("candidate_number".toList, Json.num (Int.ofNat n))]
       | none => []))

def headerToJson (h : ReportHeader) : Json :=
  Json.obj
    [("role".toList, Json.str h.role),
     ("department".toList, Json.str h.department),
     ("company".toList, Json.str h.company),
     ("location".toList, Json.str h.location),
     ("work_mode".toList, Json.str h.work_mode),
     ("report_date".toList, Json.str h.report_date),
     ("assessment_method".toList, Json.str h.assessment_method)]

/-- The JSON document written by `CVEvaluator.save_json_report`
(src/api_evaluator.py lines 280-285): `json.dump` of the report dict. -/
def reportToJson (r : ReportData) : Json :=
  Json.obj
    [("report_header".toList, headerToJson r.report_header),
     ("candidates".toList, Json.arr (r.candidates.map evalToJson)),
     ("overall_summary".toList, Json.str r.overall_summary),
     ("total_candidates".toList, Json.num (Int.ofNat r.total_candidates))]

/-- The mutation loop of `PDFReportGenerator.generate_pdf`
(src/pdf_generator.py lines 334-335): `candidate['candidate_number'] = idx`
for `idx` enumerated from `i`. -/
def injectFrom (i : Nat) : List Evaluation → List Evaluation
  | [] => []
  | e :: t => { e with candidate_number := some i } :: injectFrom (i + 1) t

/-- In-memory candidate dicts after PDF rendering: 1-based injection. -/
def injectCandidateNumbers (l : List Evaluation) : List Evaluation :=
  injectFrom 1 l

/-- The report flow of `TalentMatcherApp.evaluate_candidates`
(src/main.py lines 73-95): build the report, persist it with
`save_json_report`, then run `generate_pdf`, which injects
`candidate_number` into the in-memory candidate dicts. Returns the persisted
JSON document (snapshotted at write time) and the candidate list as it
stands after rendering. -/
def runMainFlow (cases : List CvCase) (job_title company department location work_mode : Text)
    (summaryNet : Option Text) (report_date : Text) : Json × List Evaluation :=
  let report := evaluate_candidates cases job_title company department location work_mode
    summaryNet report_date
  let savedJson := reportToJson report
  let afterPdf := injectCandidateNumbers report.candidates
  (savedJson, afterPdf)

/-- Fixed prompt text up to the interpolated `job_title`. -/
def promptSeg1 : Text :=
  "You are an expert HR analyst evaluating candidate CVs for a specific role.\n\n**JOB DETAILS:**\n- Role: ".toList

def promptSeg2 : Text := "\n- Company: ".toList

def promptSeg3 : Text := "\n- Department: ".toList

def promptSeg4 : Text := "\n".toList

/-- The conditional job-description line: Python renders it only when
`self.job_description` is truthy (present and non-empty). -/
def jdSeg : Option Text → Text
  | none => []
  | some jd => if jd.isEmpty then [] else "- Job Description: ".toList ++ jd

def promptSeg5 : Text := "\n\n**CANDIDATE CV:**\n".toList

/-- Fixed prompt text between the interpolated CV text and the interpolated
candidate name: task statement, scoring system, leniency instruction and the
start of the output-format block. -/
def scoringSeg : Text :=
  ("\n\n**YOUR TASK:**\nEvaluate this candidate against the role requirements and provide a structured assessment.\n\n**SCORING SYSTEM (Total: 100 points):**\n- Core Skills Match: 35 points (How well technical/functional skills align with role)\n- Experience Relevance: 25 points (Relevance of past work to this position)\n- Experience Level: 15 points (Years of experience and seniority level)\n- Education and Certifications: 5 points (Academic background and professional certifications)\n- Soft Skills and Competencies: 10 points (Leadership, communication, problem-solving)\n- Bonus Fit Indicators: 10 points (Cultural fit, additional value-adds, achievements)\n\n**IMPORTANT:** Be lenient in scoring. Most qualified candidates should score 65-85. Only truly exceptional candidates score 90+. Only severely mismatched candidates score below 50.\n\n**OUTPUT FORMAT (You MUST respond with valid JSON only):**\n\x7b\n  \"candidate_name\": \"").toList

/-- Fixed tail of the prompt after the interpolated candidate name: the rest
of the output-format block and the rules list. -/
def promptSeg7 : Text :=
  ("\",\n  \"match_score\": <number>,\n  \"rating_summary\": \"<exactly 50 words>\",\n  \"strengths\": [\n    \"<strength 1>\",\n    \"<strength 2>\",\n    \"<strength 3>\",\n    \"<strength 4>\"\n  ],\n  \"potential_gaps\": [\n    \"<gap 1>\",\n    \"<gap 2>\"\n  ]\n\x7d\n\n**RULES:**\n1. Respond ONLY with valid JSON. No markdown, no explanations, just JSON.\n2. Rating summary must be EXACTLY 50 words (±3 words acceptable) explaining the scoring logic.\n3. Provide exactly 4 strengths and 2 potential gaps.\n4. Be specific and reference actual experience from the CV.\n5. Be lenient - focus on potential and transferable skills.\n6. Match score should reflect overall evaluation across all criteria.\n").toList

/-- Python `CVEvaluator.create_evaluation_prompt` (src/api_evaluator.py
lines 39-91): the evaluation-prompt f-string. -/
def create_evaluation_prompt (cv_text candidate_name job_title company department : Text)
    (job_description : Option Text) : Text :=
  promptSeg1 ++ job_title ++ promptSeg2 ++ company ++ promptSeg3 ++ department ++
    promptSeg4 ++ jdSeg job_description ++ promptSeg5 ++ cv_text ++ scoringSeg ++
    candidate_name ++ promptSeg7

/-- `needle` occurs contiguously inside `hay`. -/
def containsSeg (needle hay : Text) : Prop :=
  ∃ s t, s ++ needle ++ t = hay

/-- Decidable scan for `containsSeg`. -/
def containsSegB (needle : Text) : Text → Bool
  | [] => needle.isEmpty
  | c :: rest => pyStartsWith needle (c :: rest) || containsSegB needle rest

theorem pyStartsWith_sound : ∀ p s : Text, pyStartsWith p s = true → ∃ t, p ++ t = s := by
  intro p
  induction p with
  | nil => intro s _; exact ⟨s, rfl⟩
  | cons a as IH =>
    intro s h
    cases s with
    | nil => simp [pyStartsWith] at h
    | cons b bs =>
      simp only [pyStartsWith, Bool.and_eq_true, beq_iff_eq] at h
      obtain ⟨t, ht⟩ := IH bs h.2
      exact ⟨t, by simp [h.1, ht]⟩

theorem containsSegB_sound : ∀ n h : Text, containsSegB n h = true → containsSeg n h := by
  intro n h
  induction h with
  | nil =>
    intro hh
    simp only [containsSegB, List.isEmpty_iff] at hh
    exact ⟨[], [], by simp [hh]⟩
  | cons c rest IH =>
    intro hh
    simp only [containsSegB, Bool.or_eq_true] at hh
    rcases hh with hh | hh
    · obtain ⟨t, ht⟩ := pyStartsWith_sound n (c :: rest) hh
      exact ⟨[], t, by simp [ht]⟩
    · obtain ⟨s, t, hst⟩ := IH hh
      exact ⟨c :: s, t, by simp [hst]⟩

theorem containsSeg_sub (n mid pre post : Text) (h : containsSeg n mid) :
    containsSeg n (pre ++ mid ++ post) := by
  obtain ⟨s, t, hst⟩ := h
  exact ⟨pre ++ s, t ++ post, by simp [← hst, List.append_assoc]⟩

theorem insertDesc_length (e : Evaluation) : ∀ l : List Evaluation,
    (insertDesc e l).length = l.length + 1 := by
  intro l
  induction l with
  | nil => rfl
  | cons h t IH =>
    simp only [insertDesc]
    split
    · simp [IH]
    · simp

theorem pySortDesc_length (l : List Evaluation) : (pySortDesc l).length = l.length := by
  induction l with
  | nil => rfl
  | cons c rest IH =>
    simp only [pySortDesc, List.foldr] at IH ⊢
    rw [insertDesc_length, IH]
    rfl

theorem mem_insertDesc (x e : Evaluation) : ∀ l : List Evaluation,
    x ∈ insertDesc e l ↔ x = e ∨ x ∈ l := by
  intro l
  induction l with
  | nil => simp [insertDesc]
  | cons h t IH =>
    simp only [insertDesc]
    split
    · simp only [List.mem_cons, IH]
      tauto
    · simp only [List.mem_cons]

theorem mem_pySortDesc (x : Evaluation) (l : List Evaluation) :
    x ∈ pySortDesc l ↔ x ∈ l := by
  induction l with
  | nil => simp [pySortDesc]
  | cons c rest IH =>
    simp only [pySortDesc, List.foldr] at IH ⊢
    rw [mem_insertDesc]
    simp only [List.mem_cons, IH]

theorem insertDesc_sorted (e : Evaluation) : ∀ l : List Evaluation,
    isSortedDesc l = true → isSortedDesc (insertDesc e l) = true := by
  intro l
  induction l with
  | nil => intro _; rfl
  | cons hd tl IH =>
    intro h
    cases tl with
    | nil =>
      by_cases hlt : e.match_score < hd.match_score
      · simp [insertDesc, hlt, isSortedDesc, le_of_lt hlt]
      · simp [insertDesc, hlt, isSortedDesc, le_of_not_lt hlt]
    | cons t1 tr =>
      have h1 : t1.match_score ≤ hd.match_score := by
        simp only [isSortedDesc, Bool.and_eq_true, decide_eq_true_eq] at h
        exact h.1
      have h2 : isSortedDesc (t1 :: tr) = true := by
        simp only [isSortedDesc, Bool.and_eq_true, decide_eq_true_eq] at h
        exact h.2
      by_cases hlt : e.match_score < hd.match_score
      · have hins := IH h2
        simp only [insertDesc, if_pos hlt]
        by_cases hlt2 : e.match_score < t1.match_score
        · simp only [insertDesc, if_pos hlt2] at hins ⊢
          simp only [isSortedDesc, Bool.and_eq_true, decide_eq_true_eq]
          exact ⟨h1, hins⟩
        · simp only [insertDesc, if_neg hlt2] at hins ⊢
          simp only [isSortedDesc, Bool.and_eq_true, decide_eq_true_eq] at hins ⊢
          exact ⟨le_of_lt hlt, hins⟩
      · simp only [insertDesc, if_neg hlt]
        have hge : hd.match_score ≤ e.match_score := le_of_not_lt hlt
        simp only [isSortedDesc, Bool.and_eq_true, decide_eq_true_eq] at h ⊢
        exact ⟨hge, h⟩

theorem pySortDesc_sorted (l : List Evaluation) : isSortedDesc (pySortDesc l) = true := by
  induction l with
  | nil => rfl
  | cons c rest IH =>
    simp only [pySortDesc, List.foldr] at IH ⊢
    exact insertDesc_sorted c _ IH

theorem sorted_head_max (a : Evaluation) : ∀ t : List Evaluation,
    isSortedDesc (a :: t) = true → ∀ x ∈ a :: t, x.match_score ≤ a.match_score := by
  intro t
  induction t generalizing a with
  | nil =>
    intro _ x hx
    simp at hx
    simp [hx]
  | cons b tr IH =>
    intro h x hx
    have h1 : b.match_score ≤ a.match_score := by
      simp only [isSortedDesc, Bool.and_eq_true, decide_eq_true_eq] at h
      exact h.1
    have h2 : isSortedDesc (b :: tr) = true := by
      simp only [isSortedDesc, Bool.and_eq_true, decide_eq_true_eq] at h
      exact h.2
    rcases List.mem_cons.mp hx with rfl | hx
    · exact le_refl _
    · exact le_trans (IH b h2 x hx) h1

theorem insertDesc_filter (e : Evaluation) (s : Int) : ∀ l : List Evaluation,
    (insertDesc e l).filter (fun x => x.match_score == s) =
      if e.match_score == s then e :: l.filter (fun x => x.match_score == s)
      else l.filter (fun x => x.match_score == s) := by
  intro l
  induction l with
  | nil =>
    cases hb : (e.match_score == s) <;> simp [insertDesc, List.filter, hb]
  | cons hd tl IH =>
    simp only [insertDesc]
    by_cases hlt : e.match_score < hd.match_score
    · rw [if_pos hlt]
      by_cases he : e.match_score = s
      · have hhd : ¬ hd.match_score = s := by
          intro hc
          rw [he] at hlt
          rw [hc] at hlt
          exact lt_irrefl s hlt
        simp only [List.filter_cons]
        rw [IH]
        simp [he, hhd]
      · simp only [List.filter_cons]
        rw [IH]
        simp [he]
    · rw [if_neg hlt]
      by_cases he : e.match_score = s <;> simp [List.filter_cons, he]

theorem pySortDesc_filter (s : Int) (l : List Evaluation) :
    (pySortDesc l).filter (fun x => x.match_score == s) =
      l.filter (fun x => x.match_score == s) := by
  induction l with
  | nil => rfl
  | cons c rest IH =>
    simp only [pySortDesc, List.foldr] at IH ⊢
    rw [insertDesc_filter]
    by_cases hc : c.match_score = s <;> simp [hc, IH, List.filter_cons]

theorem processCase_isSome (c : CvCase) : (processCase c).1.isSome = evalSucceeded c := by
  unfold processCase evalSucceeded
  cases hb : pyTruthyText c.extracted
  · simp
  · cases hl : c.llm with
    | raise => simp
    | ret v => cases v <;> simp

theorem processCase_some_llm (c : CvCase) (e : Evaluation)
    (h : (processCase c).1 = some e) : c.llm = LlmRes.ret (some e) := by
  unfold processCase at h
  by_cases hb : pyTruthyText c.extracted = true
  · rw [if_pos hb] at h
    cases hl : c.llm with
    | raise => rw [hl] at h; simp at h
    | ret v =>
      cases v with
      | none => rw [hl] at h; simp at h
      | some e2 =>
        rw [hl] at h
        simp at h
        rw [h]
  · rw [if_neg hb] at h
    simp at h

theorem collect_length : ∀ cases : List CvCase,
    (collectEvaluations cases).length = cases.countP evalSucceeded := by
  intro cases
  induction cases with
  | nil => rfl
  | cons c rest IH =>
    simp only [collectEvaluations, List.countP_cons]
    have hps := processCase_isSome c
    cases hp : (processCase c).1 with
    | some e =>
      rw [hp] at hps
      simp only [Option.isSome] at hps
      simp [List.length_cons, IH, ← hps]
    | none =>
      rw [hp] at hps
      simp only [Option.isSome] at hps
      simp [IH, ← hps]

theorem collect_mem (e : Evaluation) : ∀ cases : List CvCase,
    e ∈ collectEvaluations cases → ∃ c, c ∈ cases ∧ c.llm = LlmRes.ret (some e) := by
  intro cases
  induction cases with
  | nil => intro h; simp [collectEvaluations] at h
  | cons c rest IH =>
    intro h
    simp only [collectEvaluations] at h
    cases hp : (processCase c).1 with
    | some e2 =>
      rw [hp] at h
      rcases List.mem_cons.mp h with rfl | h2
      · exact ⟨c, List.mem_cons_self c rest, processCase_some_llm c e hp⟩
      · obtain ⟨c2, hc2, hl2⟩ := IH h2
        exact ⟨c2, List.mem_cons_of_mem c hc2, hl2⟩
    | none =>
      rw [hp] at h
      obtain ⟨c2, hc2, hl2⟩ := IH h
      exact ⟨c2, List.mem_cons_of_mem c hc2, hl2⟩

theorem collect_append : ∀ a b : List CvCase,
    collectEvaluations (a ++ b) = collectEvaluations a ++ collectEvaluations b := by
  intro a b
  induction a with
  | nil => rfl
  | cons c rest IH =>
    simp only [List.cons_append, collectEvaluations]
    cases hp : (processCase c).1 <;> simp [IH]

theorem countP_lt_length (p : CvCase → Bool) (x : CvCase) : ∀ l : List CvCase,
    x ∈ l → p x = false → l.countP p < l.length := by
  intro l
  induction l with
  | nil => intro h; simp at h
  | cons c rest IH =>
    intro hx hpx
    simp only [List.countP_cons, List.length_cons]
    rcases List.mem_cons.mp hx with hxc | hx2
    · have hpc : p c = false := by rw [← hxc]; exact hpx
      have h2 : (if p c = true then 1 else 0) = 0 := by simp [hpc]
      have hle := List.countP_le_length (l := rest) (p := p)
      omega
    · have h1 := IH hx2 hpx
      have h2 : (if p c = true then 1 else 0) ≤ 1 := by split <;> omega
      omega

theorem injectFrom_length : ∀ (l : List Evaluation) (i : Nat),
    (injectFrom i l).length = l.length := by
  intro l
  induction l with
  | nil => intro i; rfl
  | cons e t IH => intro i; simp [injectFrom, IH]

theorem injectFrom_get : ∀ (l : List Evaluation) (j i : Nat) (h : i < (injectFrom j l).length),
    ((injectFrom j l).get ⟨i, h⟩).candidate_number = some (j + i) := by
  intro l
  induction l with
  | nil => intro j i h; simp [injectFrom] at h
  | cons e t IH =>
    intro j i h
    cases i with
    | zero => simp [injectFrom]
    | succ i2 =>
      simp only [injectFrom, List.get] at h ⊢
      rw [IH (j + 1) i2]
      congr 1
      omega

theorem callGo_ne_none (oracle : Nat → ApiAttempt) (m : Nat) : ∀ remaining k : Nat,
    1 ≤ remaining → k + remaining = m →
    (callGo oracle m remaining k).1.isReturnedNone = false := by
  intro remaining
  induction remaining with
  | zero => intro k h; omega
  | succ r IH =>
    intro k _ hkm
    simp only [callGo]
    cases oracle k with
    | transportErr =>
      cases hbeq : (k == m - 1) with
      | true => simp [CallOutcome.isReturnedNone]
      | false =>
        simp only [Bool.false_eq_true, if_neg]
        apply IH (k + 1)
        · have : k ≠ m - 1 := by simpa using hbeq
          omega
        · omega
    | content c =>
      cases hp : pyJsonLoads (cleanContent c) with
      | some v => simp [hp, CallOutcome.isReturnedNone]
      | none =>
        simp only [hp]
        cases hbeq : (k == m - 1) with
        | true => simp [CallOutcome.isReturnedNone]
        | false =>
          simp only [Bool.false_eq_true, if_false]
          apply IH (k + 1)
          · have : k ≠ m - 1 := by simpa using hbeq
            omega
          · omega

/-- Fixture: a successfully parsed evaluation. -/
def adaEval : Evaluation :=
  { candidate_name := "Ada".toList
    match_score := 88
    rating_summary := "Strong fit".toList
    strengths := []
    potential_gaps := [] }

/-- Fixture: a second successfully parsed evaluation with a lower score. -/
def bobEval : Evaluation :=
  { candidate_name := "Bob".toList
    match_score := 70
    rating_summary := "Decent fit".toList
    strengths := []
    potential_gaps := [] }

/-- Fixture: a candidate whose extraction and evaluation both succeed. -/
def adaCase : CvCase :=
  { name := "Ada".toList, extracted := some "cv text".toList, llm := LlmRes.ret (some adaEval) }

/-- Fixture: a second fully successful candidate. -/
def bobCase : CvCase :=
  { name := "Bob".toList, extracted := some "cv text".toList, llm := LlmRes.ret (some bobEval) }

/-- Fixture: a candidate whose PDF extraction fails (`extract_text_from_pdf`
returns `None`). -/
def failCase : CvCase :=
  { name := "bad".toList, extracted := none, llm := LlmRes.raise }

/-- Fixture: a candidate whose extraction yields whitespace-only text. -/
def wsCase : CvCase :=
  { name := "ws".toList, extracted := some " ".toList, llm := LlmRes.ret (some adaEval) }

/-- Fixture: a candidate whose extraction yields the empty string. -/
def emptyCase : CvCase :=
  { name := "empty".toList, extracted := some [], llm := LlmRes.ret (some bobEval) }

/-- Fixture: an endpoint that fails with a transport error on every attempt. -/
def transportOracle : Nat → ApiAttempt := fun _ => ApiAttempt.transportErr

/-- Fixture: an endpoint that fails on attempt 0 and returns a fenced JSON
payload on every later attempt. -/
def recoverOracle : Nat → ApiAttempt := fun i =>
  if i = 0 then ApiAttempt.transportErr
  else ApiAttempt.content "```json\n\x7b\"a\":1\x7d\n```".toList

/-- C8: stripping the markdown fence from the body
```` ```json\n{"a":1}\n``` ```` yields `{"a":1}`, and parsing the cleaned
body yields the JSON object with the single field `a = 1`. -/
theorem spec_c8_fence_strip :
    cleanContent "```json\n\x7b\"a\":1\x7d\n```".toList = "\x7b\"a\":1\x7d".toList ∧
    pyJsonLoads (cleanContent "```json\n\x7b\"a\":1\x7d\n```".toList)
      = some (Json.obj [("a".toList, Json.num 1)]) :=
  ⟨rfl, rfl⟩

/-- C2: with `max_retries = 3`, if every attempt fails with a transport
error the client makes exactly 3 attempts and propagates the transport
error; if attempt 1 fails with a transport error and attempt 2 returns a
body that parses after fence stripping, the call returns that parsed value
after exactly 2 attempts. -/
theorem spec_c2_retry (o1 o2 : Nat → ApiAttempt) (c : Text) (v : Json)
    (h1 : ∀ i, o1 i = ApiAttempt.transportErr)
    (h2 : o2 0 = ApiAttempt.transportErr)
    (h3 : o2 1 = ApiAttempt.content c)
    (h4 : pyJsonLoads (cleanContent c) = some v) :
    call_deepseek_api o1 3 = (CallOutcome.transportRaised, 3) ∧
    call_deepseek_api o2 3 = (CallOutcome.success v, 2) := by
  constructor
  · simp [call_deepseek_api, callGo, h1]
  · simp [call_deepseek_api, callGo, h2, h3, h4]

/-- Witness for C2 at the concrete oracles. -/
theorem spec_c2_retry_witness :
    (∀ i, transportOracle i = ApiAttempt.transportErr) ∧
    recoverOracle 0 = ApiAttempt.transportErr ∧
    recoverOracle 1 = ApiAttempt.content "```json\n\x7b\"a\":1\x7d\n```".toList ∧
    pyJsonLoads (cleanContent "```json\n\x7b\"a\":1\x7d\n```".toList)
      = some (Json.obj [("a".toList, Json.num 1)]) ∧
    (call_deepseek_api transportOracle 3 = (CallOutcome.transportRaised, 3) ∧
     call_deepseek_api recoverOracle 3
       = (CallOutcome.success (Json.obj [("a".toList, Json.num 1)]), 2)) :=
  ⟨fun _ => rfl, rfl, rfl, rfl,
    spec_c2_retry transportOracle recoverOracle _ _ (fun _ => rfl) rfl rfl rfl⟩

/-- C10: for every oracle and every `max_retries ≥ 1`, `call_deepseek_api`
never reaches the trailing `return None`: it either returns a parsed JSON
value or re-raises the last error on the final attempt. -/
theorem spec_c10_never_none (oracle : Nat → ApiAttempt) (max_retries : Nat)
    (h : 1 ≤ max_retries) :
    (call_deepseek_api oracle max_retries).1.isReturnedNone = false ∧
    ((∃ v, (call_deepseek_api oracle max_retries).1 = CallOutcome.success v) ∨
      (call_deepseek_api oracle max_retries).1 = CallOutcome.transportRaised ∨
      (call_deepseek_api oracle max_retries).1 = CallOutcome.jsonRaised) := by
  have hb : (call_deepseek_api oracle max_retries).1.isReturnedNone = false :=
    callGo_ne_none oracle max_retries max_retries 0 h (by omega)
  refine ⟨hb, ?_⟩
  cases hr : (call_deepseek_api oracle max_retries).1 with
  | success v => exact Or.inl ⟨v, rfl⟩
  | transportRaised => exact Or.inr (Or.inl rfl)
  | jsonRaised => exact Or.inr (Or.inr rfl)
  | returnedNone =>
    rw [hr] at hb
    simp [CallOutcome.isReturnedNone] at hb

/-- Witness for C10 at the all-transport-failure oracle with 3 retries. -/
theorem spec_c10_never_none_witness :
    1 ≤ 3 ∧
    ((call_deepseek_api transportOracle 3).1.isReturnedNone = false ∧
     ((∃ v, (call_deepseek_api transportOracle 3).1 = CallOutcome.success v) ∨
       (call_deepseek_api transportOracle 3).1 = CallOutcome.transportRaised ∨
       (call_deepseek_api transportOracle 3).1 = CallOutcome.jsonRaised)) :=
  ⟨by omega, spec_c10_never_none transportOracle 3 (by omega)⟩

/-- C6: with zero evaluations the summary is the fixed "no candidates"
string; with exactly one evaluation it is the deterministic one-line string
containing the candidate's name and match score; in both cases no network
call is issued (second component `false`). -/
theorem spec_c6_summary_small (e : Evaluation) (net : Option Text) :
    generate_overall_summary [] net = (noCandidatesText, false) ∧
    generate_overall_summary [e] net =
      (e.candidate_name ++ " is the only candidate evaluated with a match score of ".toList
        ++ intToText e.match_score ++ "/100.".toList, false) ∧
    containsSeg e.candidate_name (generate_overall_summary [e] net).1 ∧
    containsSeg (intToText e.match_score) (generate_overall_summary [e] net).1 := by
  refine ⟨rfl, rfl, ?_, ?_⟩
  · exact ⟨[], " is the only candidate evaluated with a match score of ".toList
      ++ intToText e.match_score ++ "/100.".toList, by
        simp [generate_overall_summary, List.append_assoc]⟩
  · exact ⟨e.candidate_name ++ " is the only candidate evaluated with a match score of ".toList,
      "/100.".toList, by simp [generate_overall_summary, List.append_assoc]⟩

/-- C1: for every nonempty input list, `total_candidates` equals the number
of candidates for which extraction and the LLM call both succeeded, equals
the length of the `candidates` array, and differs from the raw input count
whenever any candidate was skipped. -/
theorem spec_c1_total_candidates (cases : List CvCase)
    (job_title company department location work_mode : Text)
    (summaryNet : Option Text) (report_date : Text) (_hne : cases ≠ []) :
    (evaluate_candidates cases job_title company department location work_mode summaryNet
        report_date).total_candidates = cases.countP evalSucceeded ∧
    (evaluate_candidates cases job_title company department location work_mode summaryNet
        report_date).total_candidates
      = (evaluate_candidates cases job_title company department location work_mode summaryNet
        report_date).candidates.length ∧
    (∀ c ∈ cases, evalSucceeded c = false →
      (evaluate_candidates cases job_title company department location work_mode summaryNet
        report_date).total_candidates ≠ cases.length) := by
  have htot : (evaluate_candidates cases job_title company department location work_mode
      summaryNet report_date).total_candidates = cases.countP evalSucceeded := by
    show (pySortDesc (collectEvaluations cases)).length = cases.countP evalSucceeded
    rw [pySortDesc_length, collect_length]
  refine ⟨htot, rfl, ?_⟩
  intro c hc hfc heq
  have hlt := countP_lt_length evalSucceeded c cases hc hfc
  rw [htot] at heq
  omega

/-- Witness for C1 on a two-candidate run whose second candidate fails
extraction. -/
theorem spec_c1_total_candidates_witness :
    ([adaCase, failCase] : List CvCase) ≠ [] ∧
    ((evaluate_candidates [adaCase, failCase] [] [] [] [] [] none []).total_candidates
        = List.countP evalSucceeded [adaCase, failCase] ∧
     (evaluate_candidates [adaCase, failCase] [] [] [] [] [] none []).total_candidates
        = (evaluate_candidates [adaCase, failCase] [] [] [] [] [] none []).candidates.length ∧
     (∀ c ∈ ([adaCase, failCase] : List CvCase), evalSucceeded c = false →
        (evaluate_candidates [adaCase, failCase] [] [] [] [] [] none []).total_candidates
          ≠ ([adaCase, failCase] : List CvCase).length)) :=
  ⟨by decide, spec_c1_total_candidates [adaCase, failCase] [] [] [] [] [] none [] (by decide)⟩

/-- C3: the report's `candidates` array is sorted by `match_score` in
descending order, and for each score value the subsequence of candidates
with that score equals the corresponding subsequence of the collected
evaluations in input-processing order (stability). -/
theorem spec_c3_sorted_stable (cases : List CvCase)
    (job_title company department location work_mode : Text)
    (summaryNet : Option Text) (report_date : Text) :
    isSortedDesc (evaluate_candidates cases job_title company department location work_mode
        summaryNet report_date).candidates = true ∧
    ∀ s : Int,
      (evaluate_candidates cases job_title company department location work_mode summaryNet
          report_date).candidates.filter (fun e => e.match_score == s)
        = (collectEvaluations cases).filter (fun e => e.match_score == s) := by
  exact ⟨pySortDesc_sorted (collectEvaluations cases),
    fun s => pySortDesc_filter s (collectEvaluations cases)⟩

/-- C5, counterexample: a candidate whose extraction yields the
whitespace-only text `" "` is NOT skipped — the API is called for it and its
evaluation appears in the report's candidates array, refuting the claim
that whitespace-only extraction output is treated as a failure. -/
theorem spec_c5_counterexample :
    wsCase.extracted = some " ".toList ∧
    (processCase wsCase).2 = true ∧
    (evaluate_candidates [wsCase] [] [] [] [] [] none []).candidates = [adaEval] :=
  ⟨rfl, rfl, rfl⟩

/-- C5, amended: only an extraction result that is `None` or the empty
string is treated as a failed extraction; such a candidate triggers no LLM
call and leaves the report unchanged. (Whitespace-only text is truthy and
proceeds to evaluation.) -/
theorem spec_c5_empty_skipped (c : CvCase) (pre post : List CvCase)
    (job_title company department location work_mode : Text)
    (summaryNet : Option Text) (report_date : Text)
    (h : c.extracted = none ∨ c.extracted = some []) :
    processCase c = (none, false) ∧
    evaluate_candidates (pre ++ c :: post) job_title company department location work_mode
        summaryNet report_date
      = evaluate_candidates (pre ++ post) job_title company department location work_mode
        summaryNet report_date := by
  have hfalsy : pyTruthyText c.extracted = false := by
    rcases h with h | h <;> simp [pyTruthyText, h]
  have hpc : processCase c = (none, false) := by
    simp [processCase, hfalsy]
  refine ⟨hpc, ?_⟩
  have hcol : collectEvaluations (pre ++ c :: post) = collectEvaluations (pre ++ post) := by
    rw [collect_append, collect_append]
    congr 1
    simp [collectEvaluations, hpc]
  simp [evaluate_candidates, hcol]

/-- Witness for C5 (amended) at an empty-string extraction between two
successful candidates. -/
theorem spec_c5_empty_skipped_witness :
    (emptyCase.extracted = none ∨ emptyCase.extracted = some []) ∧
    (processCase emptyCase = (none, false) ∧
     evaluate_candidates ([adaCase] ++ emptyCase :: [bobCase]) [] [] [] [] [] none []
       = evaluate_candidates ([adaCase] ++ [bobCase]) [] [] [] [] [] none []) :=
  ⟨Or.inr rfl,
    spec_c5_empty_skipped emptyCase [adaCase] [bobCase] [] [] [] [] [] none [] (Or.inr rfl)⟩

/-- C7: when two or more evaluations exist and the summary API call fails,
the report's `overall_summary` is the deterministic fallback naming the
first (highest-scoring) sorted candidate and its score, and the run still
produces the full report with all candidates, each scoring at most the
named top score. -/
theorem spec_c7_summary_fallback (cases : List CvCase)
    (job_title company department location work_mode report_date : Text)
    (e1 e2 : Evaluation) (rest : List Evaluation)
    (hsort : pySortDesc (collectEvaluations cases) = e1 :: e2 :: rest) :
    (evaluate_candidates cases job_title company department location work_mode none
        report_date).overall_summary
      = e1.candidate_name ++ " ranks highest with a score of ".toList
        ++ intToText e1.match_score
        ++ "/100, demonstrating the strongest alignment with role requirements across all evaluation criteria.".toList ∧
    (evaluate_candidates cases job_title company department location work_mode none
        report_date).candidates = e1 :: e2 :: rest ∧
    ∀ x ∈ (evaluate_candidates cases job_title company department location work_mode none
        report_date).candidates, x.match_score ≤ e1.match_score := by
  have hcand : (evaluate_candidates cases job_title company department location work_mode none
      report_date).candidates = e1 :: e2 :: rest := by
    show pySortDesc (collectEvaluations cases) = e1 :: e2 :: rest
    exact hsort
  have hsorted : isSortedDesc (e1 :: e2 :: rest) = true := by
    rw [← hsort]
    exact pySortDesc_sorted _
  refine ⟨?_, hcand, ?_⟩
  · show (generate_overall_summary (pySortDesc (collectEvaluations cases)) none).1 = _
    rw [hsort]
    rfl
  · rw [hcand]
    exact sorted_head_max e1 (e2 :: rest) hsorted

/-- Witness for C7 on a two-candidate run with a failing summary call. -/
theorem spec_c7_summary_fallback_witness :
    pySortDesc (collectEvaluations [adaCase, bobCase]) = adaEval :: bobEval :: [] ∧
    ((evaluate_candidates [adaCase, bobCase] [] [] [] [] [] none []).overall_summary
        = adaEval.candidate_name ++ " ranks highest with a score of ".toList
          ++ intToText adaEval.match_score
          ++ "/100, demonstrating the strongest alignment with role requirements across all evaluation criteria.".toList ∧
     (evaluate_candidates [adaCase, bobCase] [] [] [] [] [] none []).candidates
        = adaEval :: bobEval :: [] ∧
     ∀ x ∈ (evaluate_candidates [adaCase, bobCase] [] [] [] [] [] none []).candidates,
        x.match_score ≤ adaEval.match_score) :=
  ⟨by decide,
    spec_c7_summary_fallback [adaCase, bobCase] [] [] [] [] [] [] adaEval bobEval [] (by decide)⟩

theorem create_evaluation_prompt_decomp (cv_text candidate_name job_title company department : Text)
    (job_description : Option Text) :
    create_evaluation_prompt cv_text candidate_name job_title company department job_description
      = (promptSeg1 ++ job_title ++ promptSeg2 ++ company ++ promptSeg3 ++ department
          ++ promptSeg4 ++ jdSeg job_description ++ promptSeg5 ++ cv_text)
        ++ scoringSeg ++ (candidate_name ++ promptSeg7) := by
  simp [create_evaluation_prompt, List.append_assoc]

set_option maxRecDepth 40000

/-- C9: for all inputs the evaluation prompt contains the six scoring
category labels with their point values 35/25/15/5/10/10 (summing to 100)
and the three leniency-band phrases (qualified 65-85, exceptional 90+,
severe mismatch below 50). -/
theorem spec_c9_prompt_content (cv_text candidate_name job_title company department : Text)
    (job_description : Option Text) :
    containsSeg "- Core Skills Match: 35 points".toList
      (create_evaluation_prompt cv_text candidate_name job_title company department
        job_description) ∧
    containsSeg "- Experience Relevance: 25 points".toList
      (create_evaluation_prompt cv_text candidate_name job_title company department
        job_description) ∧
    containsSeg "- Experience Level: 15 points".toList
      (create_evaluation_prompt cv_text candidate_name job_title company department
        job_description) ∧
    containsSeg "- Education and Certifications: 5 points".toList
      (create_evaluation_prompt cv_text candidate_name job_title company department
        job_description) ∧
    containsSeg "- Soft Skills and Competencies: 10 points".toList
      (create_evaluation_prompt cv_text candidate_name job_title company department
        job_description) ∧
    containsSeg "- Bonus Fit Indicators: 10 points".toList
      (create_evaluation_prompt cv_text candidate_name job_title company department
        job_description) ∧
    containsSeg "Most qualified candidates should score 65-85.".toList
      (create_evaluation_prompt cv_text candidate_name job_title company department
        job_description) ∧
    containsSeg "Only truly exceptional candidates score 90+.".toList
      (create_evaluation_prompt cv_text candidate_name job_title company department
        job_description) ∧
    containsSeg "Only severely mismatched candidates score below 50.".toList
      (create_evaluation_prompt cv_text candidate_name job_title company department
        job_description) ∧
    35 + 25 + 15 + 5 + 10 + 10 = 100 := by
  rw [create_evaluation_prompt_decomp]
  refine ⟨?_, ?_, ?_, ?_, ?_, ?_, ?_, ?_, ?_, by norm_num⟩ <;>
    exact containsSeg_sub _ scoringSeg _ _ (containsSegB_sound _ scoringSeg (by decide))

theorem evalToJson_no_number (e : Evaluation) (h : e.candidate_number = none) :
    jsonLookup "candidate_number".toList (evalToJson e) = none := by
  simp only [evalToJson, h]
  rfl

/-- C4, counterexample: in a run with one successful candidate, the
persisted JSON report (written by `save_json_report` before PDF rendering)
contains a candidates entry with exactly the five evaluation keys and no
`candidate_number` key, refuting the claim that each persisted candidates
entry carries an injected 1-based `candidate_number`. -/
theorem spec_c4_counterexample :
    jsonLookup "candidates".toList (runMainFlow [adaCase] [] [] [] [] [] none []).1
      = some (Json.arr [Json.obj
          [("candidate_name".toList, Json.str "Ada".toList),
           ("match_score".toList, Json.num 88),
           ("rating_summary".toList, Json.str "Strong fit".toList),
           ("strengths".toList, Json.arr []),
           ("potential_gaps".toList, Json.arr [])]]) ∧
    jsonLookup "candidate_number".toList
        (Json.obj
          [("candidate_name".toList, Json.str "Ada".toList),
           ("match_score".toList, Json.num 88),
           ("rating_summary".toList, Json.str "Strong fit".toList),
           ("strengths".toList, Json.arr []),
           ("potential_gaps".toList, Json.arr [])]) = none :=
  ⟨rfl, rfl⟩

/-- C4, amended: the persisted JSON document has the four top-level keys and
the seven report-header subkeys; the `candidate_number` field is injected
into the in-memory candidate dicts only at PDF render time (1-based), after
the JSON was saved, so the persisted candidates entries carry no
`candidate_number` key. -/
theorem spec_c4_report_shape (cases : List CvCase)
    (job_title company department location work_mode : Text)
    (summaryNet : Option Text) (report_date : Text)
    (hclean : ∀ c ∈ cases, ∀ e : Evaluation,
      c.llm = LlmRes.ret (some e) → e.candidate_number = none) :
    ((jsonLookup "report_header".toList (runMainFlow cases job_title company department location
        work_mode summaryNet report_date).1).isSome = true ∧
     (jsonLookup "candidates".toList (runMainFlow cases job_title company department location
        work_mode summaryNet report_date).1).isSome = true ∧
     (jsonLookup "overall_summary".toList (runMainFlow cases job_title company department location
        work_mode summaryNet report_date).1).isSome = true ∧
     (jsonLookup "total_candidates".toList (runMainFlow cases job_title company department location
        work_mode summaryNet report_date).1).isSome = true) ∧
    (∃ hj, jsonLookup "report_header".toList (runMainFlow cases job_title company department
        location work_mode summaryNet report_date).1 = some hj ∧
      (jsonLookup "role".toList hj).isSome = true ∧
      (jsonLookup "department".toList hj).isSome = true ∧
      (jsonLookup "company".toList hj).isSome = true ∧
      (jsonLookup "location".toList hj).isSome = true ∧
      (jsonLookup "work_mode".toList hj).isSome = true ∧
      (jsonLookup "report_date".toList hj).isSome = true ∧
      (jsonLookup "assessment_method".toList hj).isSome = true) ∧
    (∃ entries, jsonLookup "candidates".toList (runMainFlow cases job_title company department
        location work_mode summaryNet report_date).1 = some (Json.arr entries) ∧
      ∀ en ∈ entries, jsonLookup "candidate_number".toList en = none) ∧
    (∀ i, ∀ h : i < (runMainFlow cases job_title company department location work_mode summaryNet
        report_date).2.length,
      ((runMainFlow cases job_title company department location work_mode summaryNet
        report_date).2.get ⟨i, h⟩).candidate_number = some (i + 1)) := by
  refine ⟨⟨rfl, rfl, rfl, rfl⟩, ⟨_, rfl, rfl, rfl, rfl, rfl, rfl, rfl, rfl⟩, ?_, ?_⟩
  · refine ⟨(evaluate_candidates cases job_title company department location work_mode summaryNet
      report_date).candidates.map evalToJson, rfl, ?_⟩
    intro en hen
    obtain ⟨e, he, rfl⟩ := List.mem_map.mp hen
    have hmem : e ∈ collectEvaluations cases := by
      have := (mem_pySortDesc e (collectEvaluations cases)).mp he
      exact this
    obtain ⟨c, hc, hl⟩ := collect_mem e cases hmem
    exact evalToJson_no_number e (hclean c hc e hl)
  · intro i h
    have hgot := injectFrom_get
      ((evaluate_candidates cases job_title company department location work_mode summaryNet
        report_date).candidates) 1 i h
    rw [Nat.add_comm] at hgot
    exact hgot

/-- Witness for C4 (amended) on a one-candidate run. -/
theorem spec_c4_report_shape_witness :
    (∀ c ∈ ([adaCase] : List CvCase), ∀ e : Evaluation,
      c.llm = LlmRes.ret (some e) → e.candidate_number = none) ∧
    (((jsonLookup "report_header".toList (runMainFlow [adaCase] [] [] [] [] [] none
        []).1).isSome = true ∧
      (jsonLookup "candidates".toList (runMainFlow [adaCase] [] [] [] [] [] none
        []).1).isSome = true ∧
      (jsonLookup "overall_summary".toList (runMainFlow [adaCase] [] [] [] [] [] none
        []).1).isSome = true ∧
      (jsonLookup "total_candidates".toList (runMainFlow [adaCase] [] [] [] [] [] none
        []).1).isSome = true) ∧
     (∃ hj, jsonLookup "report_header".toList (runMainFlow [adaCase] [] [] [] [] [] none
        []).1 = some hj ∧
       (jsonLookup "role".toList hj).isSome = true ∧
       (jsonLookup "department".toList hj).isSome = true ∧
       (jsonLookup "company".toList hj).isSome = true ∧
       (jsonLookup "location".toList hj).isSome = true ∧
       (jsonLookup "work_mode".toList hj).isSome = true ∧
       (jsonLookup "report_date".toList hj).isSome = true ∧
       (jsonLookup "assessment_method".toList hj).isSome = true) ∧
     (∃ entries, jsonLookup "candidates".toList (runMainFlow [adaCase] [] [] [] [] [] none
        []).1 = some (Json.arr entries) ∧
       ∀ en ∈ entries, jsonLookup "candidate_number".toList en = none) ∧
     (∀ i, ∀ h : i < (runMainFlow [adaCase] [] [] [] [] [] none []).2.length,
       ((runMainFlow [adaCase] [] [] [] [] [] none []).2.get ⟨i, h⟩).candidate_number
         = some (i + 1))) :=
  ⟨by
      intro c hc e he
      have hc2 : c = adaCase := by simpa using hc
      subst hc2
      injection he with h5
      injection h5 with h6
      rw [← h6]
      rfl,
    spec_c4_report_shape [adaCase] [] [] [] [] [] none []
      (by
        intro c hc e he
        have hc2 : c = adaCase := by simpa using hc
        subst hc2
        injection he with h5
        injection h5 with h6
        rw [← h6]
        rfl)⟩
